import Mathlib

/-!
Shallow embedding of the two scripts of the amazon-marketplace-scraper
repository (src/trigger_bright_data.py and src/poll_results.py), together
with theorems settling the spec's claims about them.

Modelling conventions:
* JSON values are the inductive `Json` below.  Numbers are modelled as
  integers (no claim exercises floating point).  Objects are association
  lists; Python dictionaries have unique keys, and lookups take the first
  match.
* An HTTP response body is either raw text that does not parse as JSON, or
  a JSON value (`Body`).  A JSON body always has non-empty raw text, so the
  "empty body" check of the script only fires on the unparsable case.
* Wall-clock time is a natural number of seconds.  HTTP requests are
  instantaneous; only `time.sleep(poll_interval)` advances the clock.
* Python `str.lower` and `str.strip` are modelled over the ASCII range
  (`pyLower`, `pyStrip`), which is all the scripts compare against.
-/

/-- JSON values as parsed by Python's `json` module, with numbers
restricted to integers. -/

inductive Json where
  | null : Json
  | bool : Bool → Json
  | num : Int → Json
  | str : String → Json
  | arr : List Json → Json
  | obj : List (String × Json) → Json

/-- First-match association-list lookup, the model of `d[k]` / `d.get(k)`
on a Python dictionary. -/

def getField (fields : List (String × Json)) (key : String) : Option Json :=
  match fields with
  | [] => none
  | (k, v) :: rest => if k = key then some v else getField rest key

/-- HTTP response body: either text that fails to parse as JSON, or the
parsed JSON value. -/

inductive Body where
  | unparsable : String → Body
  | json : Json → Body

/-- Outcome of one iteration of the polling loop's classification of a
response: keep polling, or stop and return the payload. -/

inductive PollStep where
  | running : PollStep
  | done : Json → PollStep

/-- Model of Python's `str.lower` (ASCII case folding, which is all the
script's comparisons exercise). -/

def pyLower (s : String) : String := String.mk (s.data.map Char.toLower)

/-- Statuses treated as "still running" at line 114 of poll_results.py. -/

def runningStatuses : List String := ["running", "pending", "processing"]

/-- Classification performed by one iteration of the `while` loop of
`poll_bright_data_results` (src/poll_results.py lines 84-129) on a response
with status code `code` and body `body`:

* a non-200 status code retries (lines 84-88);
* empty or unparsable text retries (lines 91-94 and 97-109: every branch of
  the `except json.JSONDecodeError` handler sleeps and continues);
* for a JSON object, `response_data.get("status", "").lower()` is compared
  against the running statuses (lines 112-117); when the `status` field
  holds a non-string, `.lower()` raises `AttributeError`, which the
  `except Exception` handler at line 136 turns into a retry;
* an empty JSON object retries (lines 120-123);
* anything else is returned as the final payload (line 129). -/

def pollClassify (code : Nat) (body : Body) : PollStep :=
  if code ≠ 200 then .running
  else
    match body with
    | .unparsable _ => .running
    | .json v =>
      match v with
      | .obj fields =>
        match getField fields "status" with
        | some (.str s) =>
          if pyLower s ∈ runningStatuses then .running
          else if fields.isEmpty then .running
          else .done v
        | some _ => .running
        | none =>
          if fields.isEmpty then .running
          else .done v
      | _ => .done v

/-- Result of a run of the polling loop: the returned value (`none` models
the Python `return None` on timeout), the wall-clock instants at which the
GET requests were issued, and the wall-clock time when the loop exited. -/

structure PollOutcome where
  result : Option Json
  requestTimes : List Nat
  elapsed : Nat

/-- Fuel-indexed model of the `while datetime.now() < end_time` loop of
`poll_bright_data_results` (src/poll_results.py lines 74-139).
`responses k` is the status code and body the server returns to the `k`-th
GET request (`k` starts at 0).  Requests are instantaneous; `time.sleep`
advances the clock by `interval`.  The fuel only bounds the recursion: when
`0 < interval`, `endTime + 1` units of fuel are never exhausted, because
each retry moves `now` forward by at least one second and the loop stops as
soon as `now < endTime` fails. -/

def pollFuel (responses : Nat → Nat × Body) (interval endTime : Nat) :
    Nat → Nat → Nat → PollOutcome
  | 0, now, _ => ⟨none, [], now⟩
  | fuel + 1, now, attempt =>
    if now < endTime then
      match pollClassify (responses attempt).1 (responses attempt).2 with
      | .done v => ⟨some v, [now], now⟩
      | .running =>
        let rest := pollFuel responses interval endTime fuel (now + interval) (attempt + 1)
        ⟨rest.result, now :: rest.requestTimes, rest.elapsed⟩
    else ⟨none, [], now⟩

/-- Model of `poll_bright_data_results` (src/poll_results.py lines 44-145):
the deadline is `timeout_minutes * 60` seconds after the start (line 64-66),
polling starts immediately at time 0. -/

def poll_bright_data_results (responses : Nat → Nat × Body)
    (timeout_minutes poll_interval : Nat) : PollOutcome :=
  pollFuel responses poll_interval (timeout_minutes * 60)
    (timeout_minutes * 60 + 1) 0 0

/-- ASCII whitespace stripped by Python's `str.strip`. -/

def pyIsSpace (c : Char) : Bool :=
  c = ' ' || c = '\t' || c = '\n' || c = '\r' || c = Char.ofNat 11 || c = Char.ofNat 12

/-- Model of Python's `str.strip()` with no argument (ASCII whitespace;
the job-identifier file never holds the rarer Unicode spaces). -/

def pyStrip (s : String) : String :=
  String.mk (((s.data.dropWhile pyIsSpace).reverse.dropWhile pyIsSpace).reverse)

/-- Model of `read_job_id` (src/poll_results.py lines 15-41).  The argument
is the state of `current_job.txt`: `none` when the file does not exist,
`some content` otherwise.  The function returns the stripped content, or
`none` when the file is missing or strips to the empty string. -/

def read_job_id (file : Option String) : Option String :=
  match file with
  | none => none
  | some content =>
    let response_id := pyStrip content
    if response_id = "" then none
    else some response_id

/-- Observable outcome of a run of the poller's `main`: the process exit
status and how many GET requests were issued. -/

structure PollRunResult where
  exitCode : Nat
  requests : Nat

/-- Model of `main` of src/poll_results.py (lines 235-276), projected to
exit status and request count: a missing or empty job file exits with
status 1 before any polling (lines 240-243); a timeout exits with status 1
(lines 252-257); otherwise the results are saved and the process ends with
status 0. -/

def poll_main (file : Option String) (responses : Nat → Nat × Body)
    (timeout_minutes poll_interval : Nat) : PollRunResult :=
  match read_job_id file with
  | none => ⟨1, 0⟩
  | some _ =>
    let out := poll_bright_data_results responses timeout_minutes poll_interval
    match out.result with
    | none => ⟨1, out.requestTimes.length⟩
    | some _ => ⟨0, out.requestTimes.length⟩

/-- Candidate field names probed, in order, for a list of items
(src/poll_results.py lines 168 and 215). -/

def listFieldKeys : List String := ["items", "results", "data", "products"]

/-- Value of the first key of `keys` whose value in `fields` is a list. -/

def firstListFieldAux (fields : List (String × Json)) :
    List String → Option (List Json)
  | [] => none
  | k :: ks =>
    match getField fields k with
    | some (.arr xs) => some xs
    | _ => firstListFieldAux fields ks

/-- Model of the loop `for key in ["items", "results", "data", "products"]:
if key in data and isinstance(data[key], list)` shared by `save_results`
and `extract_product_titles`. -/

def firstListField (fields : List (String × Json)) : Option (List Json) :=
  firstListFieldAux fields listFieldKeys

/-- Item count computed by `save_results` (src/poll_results.py lines
209-220): length of a top-level list; for a dictionary, the length of the
first list-valued candidate field, except that when that length is 0 (the
field is an empty list, or no candidate matched) the count falls back to
`len(data)`; 0 for any other value. -/

def save_results_count (data : Json) : Nat :=
  match data with
  | .arr xs => xs.length
  | .obj fields =>
    let count :=
      match firstListField fields with
      | some xs => xs.length
      | none => 0
    if count = 0 then fields.length else count
  | _ => 0

/-- Characters of the Python `repr` of a string (quote choice and the
escapes the scripts can exercise; control characters other than tab,
newline and carriage return are left unescaped). -/

def pyReprStrChars (s : String) : List Char :=
  let sq := Char.ofNat 39
  let q := if s.data.contains sq && !(s.data.contains '"') then '"' else sq
  let esc := fun (c : Char) =>
    if c = '\\' then ['\\', '\\']
    else if c = q then ['\\', q]
    else if c = '\n' then ['\\', 'n']
    else if c = '\r' then ['\\', 'r']
    else if c = '\t' then ['\\', 't']
    else [c]
  q :: (s.data.map esc).flatten ++ [q]

/-- Decimal digit character of `d < 10`. -/

def digitChar10 (d : Nat) : Char := Char.ofNat (48 + d)

/-- Decimal digit characters of `n` in front of `acc`, most significant
first; the fuel only bounds the recursion and `n < 10 ^ fuel` makes it
sufficient. -/

def natCharsAux : Nat → Nat → List Char → List Char
  | 0, _, acc => acc
  | f + 1, n, acc =>
    if n < 10 then digitChar10 n :: acc
    else natCharsAux f (n / 10) (digitChar10 (n % 10) :: acc)

/-- Decimal digit characters of `n`, most significant first. -/

def natChars (n : Nat) : List Char := natCharsAux (n + 1) n []

/-- Decimal representation of an integer, as printed by Python. -/

def intChars (n : Int) : List Char :=
  match n with
  | .ofNat m => natChars m
  | .negSucc m => '-' :: natChars (m + 1)

mutual

/-- Characters of the Python `repr` of a JSON value, used by `str()` on
lists and dictionaries. -/

def pyReprChars : Json → List Char
  | .null => ['N', 'o', 'n', 'e']
  | .bool true => ['T', 'r', 'u', 'e']
  | .bool false => ['F', 'a', 'l', 's', 'e']
  | .num n => intChars n
  | .str s => pyReprStrChars s
  | .arr xs => '[' :: pyReprElems xs ++ [']']
  | .obj fs => Char.ofNat 123 :: pyReprFields fs ++ [Char.ofNat 125]

/-- Comma-separated reprs of the elements of a Python list. -/

def pyReprElems : List Json → List Char
  | [] => []
  | [x] => pyReprChars x
  | x :: y :: xs => pyReprChars x ++ ',' :: ' ' :: pyReprElems (y :: xs)

/-- Comma-separated `key: value` reprs of the entries of a dictionary. -/

def pyReprFields : List (String × Json) → List Char
  | [] => []
  | [(k, v)] => pyReprStrChars k ++ ':' :: ' ' :: pyReprChars v
  | (k, v) :: kv :: fs =>
    pyReprStrChars k ++ ':' :: ' ' :: pyReprChars v ++ ',' :: ' ' :: pyReprFields (kv :: fs)
end

/-- Model of Python's `str()` applied to a JSON value: strings unchanged,
scalars and containers via their repr. -/

def pyStr : Json → String
  | .str s => s
  | v => String.mk (pyReprChars v)

/-- Model of Python string slicing `s[:n]` (by code points). -/

def pyTrunc (n : Nat) (s : String) : String := String.mk (s.data.take n)

/-- Title field names probed, in order, for each item
(src/poll_results.py line 181). -/

def titleKeys : List String := ["title", "product_title", "name", "product_name"]

/-- Value of the first key of `keys` present in `fields`, whatever its
type (the inner loop at lines 181-184 tests only membership). -/

def firstTitleFieldAux (fields : List (String × Json)) :
    List String → Option Json
  | [] => none
  | k :: ks =>
    match getField fields k with
    | some v => some v
    | none => firstTitleFieldAux fields ks

/-- First title-like field of an item dictionary. -/

def firstTitleField (fields : List (String × Json)) : Option Json :=
  firstTitleFieldAux fields titleKeys

/-- Model of the loop at src/poll_results.py lines 178-184: for each item
that is a dictionary, append `str(item[title_key])[:100]` for its first
present title key; other items contribute nothing. -/

def collectTitles : List Json → List Json
  | [] => []
  | item :: rest =>
    match item with
    | .obj fields =>
      match firstTitleField fields with
      | some v => .str (pyTrunc 100 (pyStr v)) :: collectTitles rest
      | none => collectTitles rest
    | _ => collectTitles rest

/-- Model of the single-dictionary fallback at src/poll_results.py lines
174-175: when a dictionary has no (or only an empty) list-valued candidate
field but has a `title` key, return `[data.get("title", "N/A")[:100]]`.
Slicing applies to strings and lists; on any other value it raises
`TypeError`, which the handler at line 187 turns into `[]`. -/

def dictTitleFallback (fields : List (String × Json)) : List Json :=
  match getField fields "title" with
  | some (.str s) => [.str (pyTrunc 100 s)]
  | some (.arr xs) => [.arr (xs.take 100)]
  | some _ => []
  | none => []

/-- Model of `extract_product_titles` (src/poll_results.py lines 148-189).
The result is a list of JSON values because the fallback at line 175 can
return a non-string slice; on the normal path every element is a string.
`if not items` at line 174 is true both when no candidate field matched
and when the matched field is an empty list. -/

def extract_product_titles (data : Json) : List Json :=
  match data with
  | .arr xs => collectTitles (xs.take 3)
  | .obj fields =>
    match firstListField fields with
    | some [] => dictTitleFallback fields
    | some xs => collectTitles (xs.take 3)
    | none => dictTitleFallback fields
  | _ => []

/-- Python truthiness of a JSON value, as tested by `or` chains and
`if not response_id` in src/trigger_bright_data.py. -/

def pyTruthy : Json → Bool
  | .null => false
  | .bool b => b
  | .num n => n ≠ 0
  | .str s => !s.isEmpty
  | .arr xs => !xs.isEmpty
  | .obj fs => !fs.isEmpty

/-- Value of `fields[key]` when present and truthy, the building block of
the Python expression `d.get(k₁) or d.get(k₂) or d.get(k₃)`. -/

def getTruthy (fields : List (String × Json)) (key : String) : Option Json :=
  match getField fields key with
  | some v => if pyTruthy v then some v else none
  | none => none

/-- Model of line 50 of src/trigger_bright_data.py combined with the
`if not response_id` test at line 52: the first truthy value among the
`response_id`, `id` and `job_id` fields, or `none` when no such value
exists. -/

def extract_response_id (fields : List (String × Json)) : Option Json :=
  match getTruthy fields "response_id" with
  | some v => some v
  | none =>
    match getTruthy fields "id" with
    | some v => some v
    | none => getTruthy fields "job_id"

/-- Outcome of the single POST request issued by the trigger script:
the request itself raised (`requests.exceptions.RequestException`), or an
HTTP response arrived with a status code and a body. -/

inductive TriggerResponse where
  | network_error : TriggerResponse
  | http : Nat → Body → TriggerResponse

/-- Observable outcome of one run of `python trigger_bright_data.py`:
process exit status, number of POST requests issued, content of
`current_job.txt` after the run (`none` when the file was not written),
and the value `trigger_bright_data_collector` returned (`none` when it
returned `None` or exited). -/

structure TriggerRunResult where
  exitCode : Nat
  requests : Nat
  jobFile : Option String
  returnedId : Option Json

/-- Model of a full run of src/trigger_bright_data.py: the function
`trigger_bright_data_collector` (lines 12-89) followed by the `__main__`
block (lines 92-101).  `resp` is the outcome of the single POST request
(the script has no retry loop, so every run issues exactly one request)
and `writeOk` tells whether opening `current_job.txt` for writing succeeds
(`false` models the `IOError` caught at lines 69-70, in which case the
file is untouched).

* a network error exits with status 1 (lines 78-81);
* a non-200 status returns `None` (lines 73-76) and `__main__` exits 1;
* an unparsable 200 body raises `json.JSONDecodeError`, exiting 1
  (lines 82-85);
* a parsed body that is not an object makes `.get` raise
  `AttributeError`, caught at lines 86-89, exiting 1;
* an object with no truthy identifier field returns `None` (lines 52-55)
  and `__main__` exits 1 with no file written;
* a truthy string identifier is written to the file when `writeOk`, and on
  write failure the warning at line 70 is printed, the identifier is still
  returned and the process exits 0;
* a truthy non-string identifier makes `f.write` raise `TypeError` after
  `open(..., "w")` already truncated the file, so the handler at lines
  86-89 exits 1 leaving the file empty; when the open itself fails the
  `IOError` handler swallows the error and the run still exits 0. -/

def trigger_run (resp : TriggerResponse) (writeOk : Bool) : TriggerRunResult :=
  match resp with
  | .network_error => ⟨1, 1, none, none⟩
  | .http code body =>
    if code = 200 then
      match body with
      | .unparsable _ => ⟨1, 1, none, none⟩
      | .json v =>
        match v with
        | .obj fields =>
          match extract_response_id fields with
          | none => ⟨1, 1, none, none⟩
          | some idv =>
            match idv, writeOk with
            | .str s, true => ⟨0, 1, some s, some (.str s)⟩
            | .str s, false => ⟨0, 1, none, some (.str s)⟩
            | _, true => ⟨1, 1, some "", none⟩
            | _, false => ⟨0, 1, none, some idv⟩
        | _ => ⟨1, 1, none, none⟩
    else ⟨1, 1, none, none⟩

/-- Modelled from the claim's words, for comparison with `pollClassify`:
emptiness of a parsed JSON value ("the parsed value is non-empty"). -/

def claimIsEmptyVal : Json → Bool
  | .arr xs => xs.isEmpty
  | .obj fs => fs.isEmpty
  | .str s => s.isEmpty
  | _ => false

/-- Modelled from the claim's words, for comparison with `pollClassify`:
the claimed DONE predicate — HTTP 200, the body parses as JSON, the parsed
value is non-empty, and, when the value is an object with a `status`
field, that field is not one of the running statuses. -/

def claimDonePredicate (code : Nat) (body : Body) : Bool :=
  (code == 200) &&
  match body with
  | .unparsable _ => false
  | .json v =>
    !claimIsEmptyVal v &&
    match v with
    | .obj fields =>
      match getField fields "status" with
      | some (.str s) => !(runningStatuses.contains (pyLower s))
      | some _ => true
      | none => true
    | _ => true

/-- Modelled from the claim's words, for comparison with
`save_results_count`: array length, else the length of the first
list-valued candidate field, else the object's own key count. -/

def claimItemCount (data : Json) : Nat :=
  match data with
  | .arr xs => xs.length
  | .obj fields =>
    match firstListField fields with
    | some xs => xs.length
    | none => fields.length
  | _ => 0

/-- Modelled from the claim's words, for comparison with
`extract_product_titles`: locate the item sequence (the payload itself for
an array, otherwise the first list-valued candidate field), take the first
three items and their first title-like field, and return the empty list
when no item sequence exists. -/

def claimExtract (data : Json) : List Json :=
  let located : Option (List Json) :=
    match data with
    | .arr xs => some xs
    | .obj fields => firstListField fields
    | _ => none
  match located with
  | some xs => collectTitles (xs.take 3)
  | none => []

/-- Amended DONE condition on a parsed 200-response value, matching what
the code does: an object must be non-empty and any `status` field it has
must be a string whose lowercase form is outside the running statuses;
every non-object value qualifies. -/

def pollDoneCond : Json → Prop
  | .obj fields =>
    fields ≠ [] ∧
    ∀ st, getField fields "status" = some st →
      ∃ s, st = .str s ∧ pyLower s ∉ runningStatuses
  | _ => True

/-- Server behaviour used by the C3 witness: two RUNNING-classified
responses (an empty JSON object) followed by DONE responses carrying a
one-element array. -/

def responsesRunThenDone : Nat → Nat × Body := fun k =>
  if k < 2 then (200, .json (.obj [])) else (200, .json (.arr [.num 1]))

/-- Lowercase hexadecimal digit, as emitted by Python's JSON encoder in
`\u00xx` escapes. -/

def hexDigitChar (n : Nat) : Char :=
  if n < 10 then Char.ofNat (48 + n) else Char.ofNat (87 + n)

/-- Escape of one character inside a JSON string literal, following
Python's `json` encoder with `ensure_ascii=False`: quote, backslash and
the short control escapes, `\u00xx` for the remaining control characters,
and every other character written as itself. -/

def jsonEscChar (c : Char) : List Char :=
  if c = '"' then ['\\', '"']
  else if c = '\\' then ['\\', '\\']
  else if c = '\n' then ['\\', 'n']
  else if c = '\t' then ['\\', 't']
  else if c = '\r' then ['\\', 'r']
  else if c = Char.ofNat 8 then ['\\', 'b']
  else if c = Char.ofNat 12 then ['\\', 'f']
  else if c.toNat < 32 then
    ['\\', 'u', '0', '0', hexDigitChar (c.toNat / 16), hexDigitChar (c.toNat % 16)]
  else [c]

/-- JSON string literal for `s`: quote, escaped characters, quote. -/

def jsonQuote (s : String) : List Char :=
  '"' :: (s.data.map jsonEscChar).flatten ++ ['"']

/-- Indentation prefix written by `json.dump(..., indent=2)` at nesting
level `lvl`. -/

def indentChars (lvl : Nat) : List Char := List.replicate (2 * lvl) ' '

mutual

/-- Characters `json.dump(data, f, indent=2, ensure_ascii=False)` writes
for `data` at nesting level `lvl` (src/poll_results.py line 207): scalars
inline, empty containers as `[]` and `{}`, non-empty containers with one
element per line, two extra spaces of indentation per level, `", "`-free
separators (`,` + newline between items, `: ` after keys). -/

def dumpJson : Json → Nat → List Char
  | .null, _ => ['n', 'u', 'l', 'l']
  | .bool true, _ => ['t', 'r', 'u', 'e']
  | .bool false, _ => ['f', 'a', 'l', 's', 'e']
  | .num n, _ => intChars n
  | .str s, _ => jsonQuote s
  | .arr [], _ => ['[', ']']
  | .arr (x :: xs), lvl =>
    '[' :: '\n' :: indentChars (lvl + 1) ++ dumpJson x (lvl + 1) ++
      dumpElems xs (lvl + 1) ++ '\n' :: indentChars lvl ++ [']']
  | .obj [], _ => [Char.ofNat 123, Char.ofNat 125]
  | .obj ((k, v) :: fs), lvl =>
    Char.ofNat 123 :: '\n' :: indentChars (lvl + 1) ++ jsonQuote k ++
      ':' :: ' ' :: dumpJson v (lvl + 1) ++ dumpFields fs (lvl + 1) ++
      '\n' :: indentChars lvl ++ [Char.ofNat 125]

/-- Second and later array elements: `,` then newline, indentation and the
element itself. -/

def dumpElems : List Json → Nat → List Char
  | [], _ => []
  | x :: xs, lvl =>
    ',' :: '\n' :: indentChars lvl ++ dumpJson x lvl ++ dumpElems xs lvl

/-- Second and later object members: `,` then newline, indentation, the
quoted key, `: ` and the value. -/

def dumpFields : List (String × Json) → Nat → List Char
  | [], _ => []
  | (k, v) :: fs, lvl =>
    ',' :: '\n' :: indentChars lvl ++ jsonQuote k ++ ':' :: ' ' ::
      dumpJson v lvl ++ dumpFields fs lvl
end

/-- Content of `amazon_results.json` after `save_results` writes payload
`data` (src/poll_results.py lines 206-207). -/

def save_results_file_content (data : Json) : List Char := dumpJson data 0

/-- JSON whitespace accepted between tokens. -/

def isJsonWs (c : Char) : Bool := c = ' ' || c = '\t' || c = '\n' || c = '\r'

/-- Longest whitespace prefix removed. -/

def skipWs : List Char → List Char
  | [] => []
  | c :: cs => if isJsonWs c then skipWs cs else c :: cs

/-- Numeric value of a hexadecimal digit character. -/

def hexVal (c : Char) : Option Nat :=
  if '0' ≤ c ∧ c ≤ '9' then some (c.toNat - 48)
  else if 'a' ≤ c ∧ c ≤ 'f' then some (c.toNat - 87)
  else if 'A' ≤ c ∧ c ≤ 'F' then some (c.toNat - 55)
  else none

/-- Body of a JSON string literal after the opening quote: the decoded
characters and the input remaining after the closing quote.  Escape
sequences are decoded; a `\u` escape is accepted when its code point is a
valid Unicode scalar value. -/

def parseStringBody : List Char → Option (List Char × List Char)
  | [] => none
  | c :: cs =>
    if c = '"' then some ([], cs)
    else if c = '\\' then
      match cs with
      | [] => none
      | e :: cs' =>
        if e = '"' then (parseStringBody cs').map fun p => ('"' :: p.1, p.2)
        else if e = '\\' then (parseStringBody cs').map fun p => ('\\' :: p.1, p.2)
        else if e = '/' then (parseStringBody cs').map fun p => ('/' :: p.1, p.2)
        else if e = 'n' then (parseStringBody cs').map fun p => ('\n' :: p.1, p.2)
        else if e = 't' then (parseStringBody cs').map fun p => ('\t' :: p.1, p.2)
        else if e = 'r' then (parseStringBody cs').map fun p => ('\r' :: p.1, p.2)
        else if e = 'b' then (parseStringBody cs').map fun p => (Char.ofNat 8 :: p.1, p.2)
        else if e = 'f' then (parseStringBody cs').map fun p => (Char.ofNat 12 :: p.1, p.2)
        else if e = 'u' then
          match cs' with
          | h1 :: h2 :: h3 :: h4 :: cs'' =>
            match hexVal h1, hexVal h2, hexVal h3, hexVal h4 with
            | some a, some b, some c2, some d =>
              let n := ((a * 16 + b) * 16 + c2) * 16 + d
              if n < 55296 ∨ (57344 ≤ n ∧ n < 1114112) then
                (parseStringBody cs'').map fun p => (Char.ofNat n :: p.1, p.2)
              else none
            | _, _, _, _ => none
          | _ => none
        else none
    else (parseStringBody cs).map fun p => (c :: p.1, p.2)

/-- Longest digit prefix folded into a decimal value, with the rest of the
input. -/

def parseDigits : List Char → Nat → Nat × List Char
  | [], acc => (acc, [])
  | c :: cs, acc =>
    if c.isDigit then parseDigits cs (acc * 10 + (c.toNat - 48))
    else (acc, c :: cs)

/-- Integer literal: optional minus sign then at least one digit (the
model's numbers are integers, so fractions and exponents are out of
scope). -/

def parseNum : List Char → Option (Int × List Char)
  | [] => none
  | c :: cs =>
    if c = '-' then
      match cs with
      | [] => none
      | d :: cs' =>
        if d.isDigit then
          let p := parseDigits (d :: cs') 0
          some (-(p.1 : Int), p.2)
        else none
    else if c.isDigit then
      let p := parseDigits (c :: cs) 0
      some ((p.1 : Int), p.2)
    else none

mutual

/-- Recursive-descent JSON value parser over characters, with fuel
bounding the recursion depth.  `some (v, rest)` returns the parsed value
and the unconsumed input. -/

def parseValue : Nat → List Char → Option (Json × List Char)
  | 0, _ => none
  | f + 1, cs =>
    match skipWs cs with
    | [] => none
    | c :: cs' =>
      if c = 'n' then
        match cs' with
        | 'u' :: 'l' :: 'l' :: r => some (.null, r)
        | _ => none
      else if c = 't' then
        match cs' with
        | 'r' :: 'u' :: 'e' :: r => some (.bool true, r)
        | _ => none
      else if c = 'f' then
        match cs' with
        | 'a' :: 'l' :: 's' :: 'e' :: r => some (.bool false, r)
        | _ => none
      else if c = '"' then
        (parseStringBody cs').map fun p => (.str (String.mk p.1), p.2)
      else if c = '[' then
        match skipWs cs' with
        | [] => none
        | c2 :: r =>
          if c2 = ']' then some (.arr [], r)
          else (parseElems f (c2 :: r)).map fun p => (.arr p.1, p.2)
      else if c = Char.ofNat 123 then
        match skipWs cs' with
        | [] => none
        | c2 :: r =>
          if c2 = Char.ofNat 125 then some (.obj [], r)
          else (parseMembers f (c2 :: r)).map fun p => (.obj p.1, p.2)
      else if c = '-' || c.isDigit then
        (parseNum (c :: cs')).map fun p => (.num p.1, p.2)
      else none

/-- One or more comma-separated array elements followed by `]`. -/

def parseElems : Nat → List Char → Option (List Json × List Char)
  | 0, _ => none
  | f + 1, cs =>
    match parseValue f cs with
    | none => none
    | some (v, r1) =>
      match skipWs r1 with
      | [] => none
      | c :: r2 =>
        if c = ',' then (parseElems f r2).map fun p => (v :: p.1, p.2)
        else if c = ']' then some ([v], r2)
        else none

/-- One or more comma-separated `"key": value` members followed by `}`. -/

def parseMembers : Nat → List Char → Option (List (String × Json) × List Char)
  | 0, _ => none
  | f + 1, cs =>
    match skipWs cs with
    | [] => none
    | c0 :: cs1 =>
      if c0 = '"' then
        match parseStringBody cs1 with
        | none => none
        | some (kcs, r1) =>
          match skipWs r1 with
          | [] => none
          | c1 :: r2 =>
            if c1 = ':' then
              match parseValue f r2 with
              | none => none
              | some (v, r3) =>
                match skipWs r3 with
                | [] => none
                | c :: r4 =>
                  if c = ',' then
                    (parseMembers f r4).map fun p => ((String.mk kcs, v) :: p.1, p.2)
                  else if c = Char.ofNat 125 then some ([(String.mk kcs, v)], r4)
                  else none
            else none
      else none
end

mutual

/-- Structural size of a JSON value: one per value node and per container
entry, independent of the magnitudes of the numbers and strings inside.
Bounds the parser fuel a value's serialization needs. -/

def jsize : Json → Nat
  | .null => 1
  | .bool _ => 1
  | .num _ => 1
  | .str _ => 1
  | .arr xs => 1 + jsizeList xs
  | .obj fs => 1 + jsizeFields fs

/-- Cumulative size of array elements. -/

def jsizeList : List Json → Nat
  | [] => 0
  | x :: xs => 1 + jsize x + jsizeList xs

/-- Cumulative size of object members. -/

def jsizeFields : List (String × Json) → Nat
  | [] => 0
  | (_, v) :: fs => 1 + jsize v + jsizeFields fs
end

/-- Model of `json.loads`: parse a complete JSON document, allowing
surrounding whitespace, rejecting trailing garbage.  The fuel
`cs.length + 1` dominates the nesting depth of any parse. -/

def json_loads (cs : List Char) : Option Json :=
  match parseValue (cs.length + 1) cs with
  | some (v, r) => if (skipWs r).isEmpty then some v else none
  | none => none

/-- Input that cannot extend a decimal literal: empty, or starting with a
non-digit. -/

def numSafe : List Char → Bool
  | [] => true
  | c :: _ => !c.isDigit

theorem pollClassify_obj_eq (fields : List (String × Json)) :
    pollClassify 200 (.json (.obj fields)) =
      (match getField fields "status" with
      | some (.str s) =>
        if pyLower s ∈ runningStatuses then .running
        else if fields.isEmpty then .running
        else .done (.obj fields)
      | some _ => .running
      | none =>
        if fields.isEmpty then .running
        else .done (.obj fields)) := rfl

theorem pollClassify_obj_no_status (fields : List (String × Json))
    (hst : getField fields "status" = none) :
    pollClassify 200 (.json (.obj fields)) =
      if fields.isEmpty then .running else .done (.obj fields) := by
  rw [pollClassify_obj_eq, hst]

theorem pollClassify_obj_status_str (fields : List (String × Json)) (s : String)
    (hst : getField fields "status" = some (.str s)) :
    pollClassify 200 (.json (.obj fields)) =
      if pyLower s ∈ runningStatuses then .running
      else if fields.isEmpty then .running
      else .done (.obj fields) := by
  rw [pollClassify_obj_eq, hst]

theorem pollClassify_obj_status_nonstr (fields : List (String × Json)) (st : Json)
    (hst : getField fields "status" = some st) (hns : ∀ s, st ≠ .str s) :
    pollClassify 200 (.json (.obj fields)) = .running := by
  rw [pollClassify_obj_eq, hst]
  cases st with
  | str s => exact absurd rfl (hns s)
  | null => rfl
  | bool b => rfl
  | num n => rfl
  | arr xs => rfl
  | obj fs => rfl

theorem pollClassify_done_iff (code : Nat) (body : Body) (v : Json) :
    pollClassify code body = .done v ↔
      code = 200 ∧ body = .json v ∧ pollDoneCond v := by
  constructor
  · intro h
    by_cases hc : code = 200
    · subst hc
      cases body with
      | unparsable t =>
        exfalso
        unfold pollClassify at h
        rw [if_neg (by simp)] at h
        exact absurd h (by simp)
      | json w =>
        cases w with
        | null => injection h with h'; subst h'; exact ⟨rfl, rfl, trivial⟩
        | bool b => injection h with h'; subst h'; exact ⟨rfl, rfl, trivial⟩
        | num n => injection h with h'; subst h'; exact ⟨rfl, rfl, trivial⟩
        | str s => injection h with h'; subst h'; exact ⟨rfl, rfl, trivial⟩
        | arr xs => injection h with h'; subst h'; exact ⟨rfl, rfl, trivial⟩
        | obj fields =>
          rcases hst : getField fields "status" with _ | st
          · rw [pollClassify_obj_no_status fields hst] at h
            by_cases he : fields.isEmpty
            · rw [if_pos he] at h; exact absurd h (by simp)
            · rw [if_neg he] at h
              injection h with h'; subst h'
              refine ⟨rfl, rfl, ?_, ?_⟩
              · simpa [List.isEmpty_iff] using he
              · intro st hsome; rw [hst] at hsome; cases hsome
          · cases st with
            | str s =>
              rw [pollClassify_obj_status_str fields s hst] at h
              by_cases hin : pyLower s ∈ runningStatuses
              · rw [if_pos hin] at h; exact absurd h (by simp)
              · rw [if_neg hin] at h
                by_cases he : fields.isEmpty
                · rw [if_pos he] at h; exact absurd h (by simp)
                · rw [if_neg he] at h
                  injection h with h'; subst h'
                  refine ⟨rfl, rfl, ?_, ?_⟩
                  · simpa [List.isEmpty_iff] using he
                  · intro st hsome
                    rw [hst] at hsome
                    injection hsome with h''
                    exact ⟨s, h''.symm ▸ rfl, hin⟩
            | null =>
              rw [pollClassify_obj_status_nonstr fields _ hst (by intro s h'; cases h')] at h
              exact absurd h (by simp)
            | bool b =>
              rw [pollClassify_obj_status_nonstr fields _ hst (by intro s h'; cases h')] at h
              exact absurd h (by simp)
            | num n =>
              rw [pollClassify_obj_status_nonstr fields _ hst (by intro s h'; cases h')] at h
              exact absurd h (by simp)
            | arr xs =>
              rw [pollClassify_obj_status_nonstr fields _ hst (by intro s h'; cases h')] at h
              exact absurd h (by simp)
            | obj fs =>
              rw [pollClassify_obj_status_nonstr fields _ hst (by intro s h'; cases h')] at h
              exact absurd h (by simp)
    · exfalso
      unfold pollClassify at h
      rw [if_pos hc] at h
      exact absurd h (by simp)
  · rintro ⟨rfl, rfl, hcond⟩
    cases v with
    | null => rfl
    | bool b => rfl
    | num n => rfl
    | str s => rfl
    | arr xs => rfl
    | obj fields =>
      obtain ⟨hne, hstat⟩ := hcond
      have he : fields.isEmpty = false := by
        simpa [List.isEmpty_iff] using hne
      rcases hgf : getField fields "status" with _ | st
      · rw [pollClassify_obj_no_status fields hgf, he]; rfl
      · obtain ⟨s, rfl, hout⟩ := hstat st hgf
        rw [pollClassify_obj_status_str fields s hgf, if_neg hout, he]
        rfl

/-- C1 (amended): the poll classification marks a response DONE exactly
when it has HTTP status 200, its body parses as JSON, and, when the parsed
value is an object, the object is non-empty and any `status` field it has
is a string whose lowercase form is not one of running/pending/processing;
in particular, every HTTP 200 response whose JSON body is a non-empty
object without a `status` field is classified DONE.  (Unlike the original
claim, non-emptiness is only required of objects — an empty array is
classified DONE — and a non-string `status` field means RUNNING, not
DONE.) -/
theorem poll_done_predicate_amended :
    (∀ (code : Nat) (body : Body) (v : Json),
      pollClassify code body = .done v ↔
        code = 200 ∧ body = .json v ∧ pollDoneCond v) ∧
    (∀ fields : List (String × Json), fields ≠ [] →
      getField fields "status" = none →
      pollClassify 200 (.json (.obj fields)) = .done (.obj fields)) := by
  refine ⟨pollClassify_done_iff, fun fields hne hnone => ?_⟩
  refine (pollClassify_done_iff 200 (.json (.obj fields)) (.obj fields)).2
    ⟨rfl, rfl, hne, fun st hsome => ?_⟩
  rw [hnone] at hsome
  cases hsome

/-- C1 witness: the amended characterization applied to two concrete
200-responses, a one-field object without `status` and an object whose
`status` is the non-running string `"done"`. -/
theorem poll_done_predicate_amended_witness :
    pollClassify 200 (.json (.obj [("total", .num 7)])) =
      .done (.obj [("total", .num 7)]) ∧
    pollClassify 200 (.json (.obj [("status", .str "done"), ("items", .arr [])])) =
      .done (.obj [("status", .str "done"), ("items", .arr [])]) := by
  constructor
  · exact poll_done_predicate_amended.2 [("total", .num 7)] (by simp) rfl
  · refine (poll_done_predicate_amended.1 200 _ _).2 ⟨rfl, rfl, by simp, ?_⟩
    intro st hsome
    refine ⟨"done", by injection hsome with h; exact h.symm, ?_⟩
    simp [pyLower, runningStatuses]

/-- C1 counterexample: the HTTP 200 response with body `[]` parses to the
empty JSON array — empty, so the claimed predicate rejects it — yet the
code classifies it as DONE and returns it. -/
theorem poll_done_predicate_counterexample :
    pollClassify 200 (.json (.arr [])) = .done (.arr []) ∧
    claimDonePredicate 200 (.json (.arr [])) = false :=
  ⟨rfl, rfl⟩

/-- C2: every HTTP 200 response whose JSON body is an object whose
`status` field is a string equal to running, pending or processing under
case-insensitive comparison is classified RUNNING, whatever other fields
the object has. -/
theorem poll_running_status_is_running
    (fields : List (String × Json)) (s : String)
    (hst : getField fields "status" = some (.str s))
    (hin : pyLower s ∈ runningStatuses) :
    pollClassify 200 (.json (.obj fields)) = .running := by
  rw [pollClassify_obj_status_str fields s hst, if_pos hin]

/-- C2 witness: a 200 response whose `status` is `"Running"` (mixed case)
next to unrelated fields is classified RUNNING. -/
theorem poll_running_status_is_running_witness :
    pollClassify 200 (.json (.obj [("status", .str "Running"),
      ("items", .arr [.num 1]), ("total", .num 5)])) = .running := by
  refine poll_running_status_is_running _ "Running" rfl ?_
  simp [pyLower, runningStatuses]

/-- C5 (amended): the item count of `save_results` is the array length for
an array; for an object it is the length of the first list-valued field
among `items`, `results`, `data`, `products` when that length is non-zero,
and otherwise — first list-valued field empty, or no list-valued field —
it falls back to the object's own key count (0 for the empty object); the
payload `[]` counts 0.  (Unlike the original claim, a matching empty list
field does not give count 0: the `if count == 0` fallback at line 219
replaces it with `len(data)`.) -/
theorem save_results_count_amended :
    (∀ xs : List Json, save_results_count (.arr xs) = xs.length) ∧
    (∀ (fields : List (String × Json)) (xs : List Json),
      firstListField fields = some xs → xs ≠ [] →
      save_results_count (.obj fields) = xs.length) ∧
    (∀ fields : List (String × Json), firstListField fields = some [] →
      save_results_count (.obj fields) = fields.length) ∧
    (∀ fields : List (String × Json), firstListField fields = none →
      save_results_count (.obj fields) = fields.length) ∧
    save_results_count (.arr []) = 0 := by
  refine ⟨fun xs => rfl, ?_, ?_, ?_, rfl⟩
  · intro fields xs h hne
    simp [save_results_count, h, List.length_eq_zero, hne]
  · intro fields h
    simp [save_results_count, h]
  · intro fields h
    simp [save_results_count, h]

/-- C5 witness: the amended count on concrete payloads — a two-element
array, an object with a three-element `results` list, an object whose
`items` list is empty (count falls back to the two keys), and an object
with no list-valued field. -/
theorem save_results_count_amended_witness :
    save_results_count (.arr [.num 1, .num 2]) = 2 ∧
    save_results_count (.obj [("results", .arr [.num 1, .num 2, .num 3])]) = 3 ∧
    save_results_count (.obj [("items", .arr []), ("x", .num 1)]) = 2 ∧
    save_results_count (.obj [("a", .num 1), ("b", .num 2)]) = 2 := by
  refine ⟨save_results_count_amended.1 [.num 1, .num 2], ?_, ?_, ?_⟩
  · exact save_results_count_amended.2.1 _ [.num 1, .num 2, .num 3] rfl (by simp)
  · exact save_results_count_amended.2.2.1 [("items", .arr []), ("x", .num 1)] rfl
  · exact save_results_count_amended.2.2.2.1 [("a", .num 1), ("b", .num 2)] rfl

/-- C5 counterexample: for the payload `{"items": []}` the first
list-valued candidate field has length 0, so the claim's count is 0, but
`save_results` falls back to `len(data)` and reports 1. -/
theorem save_results_count_counterexample :
    save_results_count (.obj [("items", .arr [])]) = 1 ∧
    claimItemCount (.obj [("items", .arr [])]) = 0 :=
  ⟨rfl, rfl⟩

/-- C6 (amended): sample extraction behaves as claimed — locate the item
sequence (the payload itself for an array, else the first list-valued
candidate field), keep the first three items, and for each dictionary item
take `str()` of its first title-like field truncated to 100 characters —
except when the payload is an object whose candidate list-valued field is
absent or empty: then, instead of returning the empty list, the code
returns the singleton `[data["title"][:100]]` whenever the object has a
`title` key with a sliceable value (lines 174-175).  For the concrete
payload of the claim the result is exactly A, B, C. -/
theorem extract_product_titles_amended :
    (∀ xs : List Json,
      extract_product_titles (.arr xs) = claimExtract (.arr xs)) ∧
    (∀ (fields : List (String × Json)) (xs : List Json),
      firstListField fields = some xs → xs ≠ [] →
      extract_product_titles (.obj fields) = claimExtract (.obj fields)) ∧
    (∀ fields : List (String × Json),
      firstListField fields = none ∨ firstListField fields = some [] →
      extract_product_titles (.obj fields) = dictTitleFallback fields) ∧
    extract_product_titles .null = [] ∧
    (∀ b, extract_product_titles (.bool b) = []) ∧
    (∀ n, extract_product_titles (.num n) = []) ∧
    (∀ s, extract_product_titles (.str s) = []) ∧
    extract_product_titles (.obj [("items", .arr [.obj [("title", .str "A")],
      .obj [("title", .str "B")], .obj [("title", .str "C")],
      .obj [("title", .str "D")]])]) = [.str "A", .str "B", .str "C"] := by
  refine ⟨fun xs => rfl, ?_, ?_, rfl, fun b => rfl, fun n => rfl, fun s => rfl, rfl⟩
  · intro fields xs h hne
    cases xs with
    | nil => exact absurd rfl hne
    | cons x rest => simp [extract_product_titles, claimExtract, h]
  · intro fields h
    rcases h with h | h <;> simp [extract_product_titles, h]

/-- C6 witness: the amended behaviour on concrete payloads — an object
with a one-item `items` list agrees with the claimed extraction, and an
object with an empty `items` list and a `title` key takes the fallback. -/
theorem extract_product_titles_amended_witness :
    extract_product_titles (.obj [("items", .arr [.obj [("title", .str "A")]])]) =
      claimExtract (.obj [("items", .arr [.obj [("title", .str "A")]])]) ∧
    extract_product_titles (.obj [("items", .arr []), ("title", .str "T")]) =
      dictTitleFallback [("items", .arr []), ("title", .str "T")] := by
  constructor
  · exact extract_product_titles_amended.2.1 _ [.obj [("title", .str "A")]] rfl (by simp)
  · exact extract_product_titles_amended.2.2.1 _ (Or.inr rfl)

/-- C6 counterexample: for the payload `{"title": "X"}` no item sequence
exists, so the claimed extraction returns the empty list, but the code's
single-dictionary fallback returns `["X"]`. -/
theorem extract_product_titles_counterexample :
    extract_product_titles (.obj [("title", .str "X")]) = [.str "X"] ∧
    claimExtract (.obj [("title", .str "X")]) = [] :=
  ⟨rfl, rfl⟩

/-- C8: whenever `current_job.txt` is missing, or exists but strips to the
empty string, the poll operation exits with status 1 having issued no
network request. -/
theorem poll_no_job_file_exits_1
    (file : Option String) (responses : Nat → Nat × Body)
    (timeout_minutes poll_interval : Nat)
    (h : file = none ∨ ∃ s, file = some s ∧ pyStrip s = "") :
    poll_main file responses timeout_minutes poll_interval = ⟨1, 0⟩ := by
  rcases h with rfl | ⟨s, rfl, hs⟩
  · rfl
  · simp [poll_main, read_job_id, hs]

/-- C8 witness: a missing file and a whitespace-only file both exit with
status 1 and zero requests, whatever the server would have answered. -/
theorem poll_no_job_file_exits_1_witness :
    poll_main none (fun _ => (200, .json (.arr [.num 1]))) 30 10 = ⟨1, 0⟩ ∧
    poll_main (some "  \t\n ") (fun _ => (200, .json (.arr [.num 1]))) 30 10 = ⟨1, 0⟩ := by
  constructor
  · exact poll_no_job_file_exits_1 none _ 30 10 (Or.inl rfl)
  · exact poll_no_job_file_exits_1 (some "  \t\n ") _ 30 10
      (Or.inr ⟨"  \t\n ", rfl, by decide⟩)

/-- C9: a network failure, a non-200 status, a JSON parse failure, and a
200 object response with none of the identifier fields `response_id`,
`id`, `job_id` all make the trigger run issue exactly one request, write
no job file, return no identifier and exit with status 1 — regardless of
whether the job file would have been writable. -/
theorem trigger_failure_paths :
    ∀ writeOk : Bool,
      trigger_run .network_error writeOk = ⟨1, 1, none, none⟩ ∧
      (∀ (code : Nat) (body : Body), code ≠ 200 →
        trigger_run (.http code body) writeOk = ⟨1, 1, none, none⟩) ∧
      (∀ t : String,
        trigger_run (.http 200 (.unparsable t)) writeOk = ⟨1, 1, none, none⟩) ∧
      (∀ fields : List (String × Json),
        getField fields "response_id" = none →
        getField fields "id" = none →
        getField fields "job_id" = none →
        trigger_run (.http 200 (.json (.obj fields))) writeOk = ⟨1, 1, none, none⟩) := by
  intro writeOk
  refine ⟨rfl, ?_, fun t => rfl, ?_⟩
  · intro code body hc
    simp [trigger_run, hc]
  · intro fields h1 h2 h3
    have hid : extract_response_id fields = none := by
      simp [extract_response_id, getTruthy, h1, h2, h3]
    simp [trigger_run, hid]

/-- C9 witness: the four failure modes at concrete inputs — a network
error, HTTP 500, an unparsable 200 body, and a 200 object carrying no
identifier field. -/
theorem trigger_failure_paths_witness :
    trigger_run .network_error true = ⟨1, 1, none, none⟩ ∧
    trigger_run (.http 500 (.json (.obj [("response_id", .str "j")]))) true =
      ⟨1, 1, none, none⟩ ∧
    trigger_run (.http 200 (.unparsable "oops")) true = ⟨1, 1, none, none⟩ ∧
    trigger_run (.http 200 (.json (.obj [("ok", .bool true)]))) true =
      ⟨1, 1, none, none⟩ := by
  refine ⟨(trigger_failure_paths true).1, ?_, (trigger_failure_paths true).2.2.1 "oops", ?_⟩
  · exact (trigger_failure_paths true).2.1 500 _ (by decide)
  · exact (trigger_failure_paths true).2.2.2 [("ok", .bool true)] rfl rfl rfl

/-- C10: when the trigger extracts a (string) job identifier but the write
to `current_job.txt` fails with an I/O error, the failure is non-fatal:
the identifier is still returned, the process exits with status 0, and the
job file is left unwritten — so exit status 0 does not guarantee the file
holds the new identifier. -/
theorem trigger_write_failure_nonfatal
    (fields : List (String × Json)) (s : String)
    (hid : extract_response_id fields = some (.str s)) :
    trigger_run (.http 200 (.json (.obj fields))) false =
      ⟨0, 1, none, some (.str s)⟩ := by
  simp [trigger_run, hid]

/-- C10 witness: a 200 response with `response_id` `"job-42"` and a failing
file write still exits 0 and returns the identifier, with no file. -/
theorem trigger_write_failure_nonfatal_witness :
    trigger_run (.http 200 (.json (.obj [("response_id", .str "job-42")]))) false =
      ⟨0, 1, none, some (.str "job-42")⟩ :=
  trigger_write_failure_nonfatal [("response_id", .str "job-42")] "job-42" rfl

theorem pollFuel_succ (responses : Nat → Nat × Body)
    (interval endTime f now attempt : Nat) :
    pollFuel responses interval endTime (f + 1) now attempt =
      if now < endTime then
        match pollClassify (responses attempt).1 (responses attempt).2 with
        | .done v => ⟨some v, [now], now⟩
        | .running =>
          let rest := pollFuel responses interval endTime f (now + interval) (attempt + 1)
          ⟨rest.result, now :: rest.requestTimes, rest.elapsed⟩
      else ⟨none, [], now⟩ := rfl

theorem pollFuel_succ_done (responses : Nat → Nat × Body)
    (interval endTime f now attempt : Nat) (v : Json)
    (h : pollClassify (responses attempt).1 (responses attempt).2 = .done v)
    (hlt : now < endTime) :
    pollFuel responses interval endTime (f + 1) now attempt = ⟨some v, [now], now⟩ := by
  rw [pollFuel_succ, if_pos hlt, h]

theorem pollFuel_succ_running (responses : Nat → Nat × Body)
    (interval endTime f now attempt : Nat)
    (h : pollClassify (responses attempt).1 (responses attempt).2 = .running)
    (hlt : now < endTime) :
    pollFuel responses interval endTime (f + 1) now attempt =
      ⟨(pollFuel responses interval endTime f (now + interval) (attempt + 1)).result,
       now :: (pollFuel responses interval endTime f (now + interval) (attempt + 1)).requestTimes,
       (pollFuel responses interval endTime f (now + interval) (attempt + 1)).elapsed⟩ := by
  rw [pollFuel_succ, if_pos hlt, h]

theorem pollFuel_succ_deadline (responses : Nat → Nat × Body)
    (interval endTime f now attempt : Nat) (hlt : ¬ now < endTime) :
    pollFuel responses interval endTime (f + 1) now attempt = ⟨none, [], now⟩ := by
  rw [pollFuel_succ, if_neg hlt]

theorem pollFuel_run_then_done (responses : Nat → Nat × Body)
    (interval endTime : Nat) (v : Json) :
    ∀ (N fuel now attempt : Nat),
      (∀ k, k < N →
        pollClassify (responses (attempt + k)).1 (responses (attempt + k)).2 = .running) →
      pollClassify (responses (attempt + N)).1 (responses (attempt + N)).2 = .done v →
      now + N * interval < endTime →
      N < fuel →
      pollFuel responses interval endTime fuel now attempt =
        ⟨some v, (List.range (N + 1)).map (fun k => now + k * interval),
         now + N * interval⟩ := by
  intro N
  induction N with
  | zero =>
    intro fuel now attempt hrun hdone hin hfuel
    cases fuel with
    | zero => omega
    | succ f =>
      have hlt : now < endTime := by simpa using hin
      rw [Nat.add_zero] at hdone
      rw [pollFuel_succ_done responses interval endTime f now attempt v hdone hlt]
      rw [show List.range 1 = [0] from rfl]
      simp
  | succ N ih =>
    intro fuel now attempt hrun hdone hin hfuel
    cases fuel with
    | zero => omega
    | succ f =>
      rw [Nat.succ_mul] at hin
      have hlt : now < endTime := by omega
      have h0 : pollClassify (responses attempt).1 (responses attempt).2 = .running := by
        have := hrun 0 (Nat.succ_pos N)
        rwa [Nat.add_zero] at this
      rw [pollFuel_succ_running responses interval endTime f now attempt h0 hlt]
      have ihres := ih f (now + interval) (attempt + 1)
        (fun k hk => by
          have := hrun (k + 1) (by omega)
          rwa [show attempt + (k + 1) = attempt + 1 + k by omega] at this)
        (by rwa [show attempt + 1 + N = attempt + (N + 1) by omega])
        (by omega)
        (by omega)
      rw [ihres]
      have hlist : (List.range (N + 1 + 1)).map (fun k => now + k * interval) =
          now :: (List.range (N + 1)).map (fun k => now + interval + k * interval) := by
        rw [List.range_succ_eq_map, List.map_cons, List.map_map]
        refine congrArg₂ _ (by simp) (List.map_congr_left ?_)
        intro k _
        simp [Function.comp, Nat.succ_mul]
        omega
      rw [hlist]
      refine congrArg₂ _ rfl ?_
      show now + interval + N * interval = now + (N + 1) * interval
      rw [Nat.succ_mul]
      omega

/-- C3: with a positive poll interval, for every `N` and every response
sequence of `N` RUNNING-classified responses followed by a DONE-classified
response, if the deadline is not reached during those attempts
(`N * poll_interval < timeout_minutes * 60`) then the loop issues exactly
`N + 1` GET requests, at times `0, poll_interval, …, N * poll_interval`
(one poll-interval wait between consecutive requests), and returns the
payload of the final response. -/
theorem poll_runs_then_done
    (responses : Nat → Nat × Body) (timeout_minutes poll_interval N : Nat) (v : Json)
    (hI : 0 < poll_interval)
    (hrun : ∀ k, k < N → pollClassify (responses k).1 (responses k).2 = .running)
    (hdone : pollClassify (responses N).1 (responses N).2 = .done v)
    (hdl : N * poll_interval < timeout_minutes * 60) :
    poll_bright_data_results responses timeout_minutes poll_interval =
      ⟨some v, (List.range (N + 1)).map (fun k => k * poll_interval),
       N * poll_interval⟩ ∧
    (poll_bright_data_results responses timeout_minutes poll_interval).requestTimes.length
      = N + 1 := by
  have hfuel : N < timeout_minutes * 60 + 1 := by
    have : N ≤ N * poll_interval := Nat.le_mul_of_pos_right N hI
    omega
  have key := pollFuel_run_then_done responses poll_interval (timeout_minutes * 60) v N
    (timeout_minutes * 60 + 1) 0 0
    (fun k hk => by simpa using hrun k hk)
    (by simpa using hdone)
    (by simpa using hdl)
    hfuel
  have hmap : (List.range (N + 1)).map (fun k => 0 + k * poll_interval) =
      (List.range (N + 1)).map (fun k => k * poll_interval) :=
    List.map_congr_left (fun k _ => by omega)
  have hmain : poll_bright_data_results responses timeout_minutes poll_interval =
      ⟨some v, (List.range (N + 1)).map (fun k => k * poll_interval),
       N * poll_interval⟩ := by
    unfold poll_bright_data_results
    rw [key, hmap]
    simp
  refine ⟨hmain, ?_⟩
  rw [hmain]
  simp

/-- C3 witness: with interval 10 s and timeout 1 min, two RUNNING
responses followed by a DONE response give three requests at times 0, 10
and 20 and return the DONE payload. -/
theorem poll_runs_then_done_witness :
    0 < 10 ∧ 2 * 10 < 1 * 60 ∧
    poll_bright_data_results responsesRunThenDone 1 10 =
      ⟨some (.arr [.num 1]), (List.range (2 + 1)).map (fun k => k * 10), 2 * 10⟩ ∧
    (poll_bright_data_results responsesRunThenDone 1 10).requestTimes.length = 2 + 1 := by
  have h := poll_runs_then_done responsesRunThenDone 1 10 2 (.arr [.num 1])
    (by omega)
    (fun k hk => by
      interval_cases k
      · rfl
      · rfl)
    rfl
    (by omega)
  exact ⟨by omega, by omega, h.1, h.2⟩

theorem pollFuel_all_running (responses : Nat → Nat × Body)
    (interval endTime : Nat) (hI : 0 < interval) :
    ∀ (fuel now attempt : Nat),
      (∀ j, now + j * interval < endTime →
        pollClassify (responses (attempt + j)).1 (responses (attempt + j)).2 = .running) →
      endTime ≤ now + fuel →
      now < endTime + interval →
      (pollFuel responses interval endTime fuel now attempt).result = none ∧
      endTime ≤ (pollFuel responses interval endTime fuel now attempt).elapsed ∧
      (pollFuel responses interval endTime fuel now attempt).elapsed <
        endTime + interval := by
  intro fuel
  induction fuel with
  | zero =>
    intro now attempt hrun hf hpre
    exact ⟨rfl, by simpa using hf, by simpa using hpre⟩
  | succ f ih =>
    intro now attempt hrun hf hpre
    by_cases hlt : now < endTime
    · have h0 : pollClassify (responses attempt).1 (responses attempt).2 = .running := by
        have := hrun 0 (by simpa using hlt)
        rwa [Nat.add_zero] at this
      rw [pollFuel_succ_running responses interval endTime f now attempt h0 hlt]
      have ihres := ih (now + interval) (attempt + 1)
        (fun j hj => by
          have := hrun (j + 1) (by rw [Nat.succ_mul]; omega)
          rwa [show attempt + (j + 1) = attempt + 1 + j by omega] at this)
        (by omega)
        (by omega)
      exact ihres
    · rw [pollFuel_succ_deadline responses interval endTime f now attempt hlt]
      refine ⟨rfl, ?_, ?_⟩
      · show endTime ≤ now
        omega
      · show now < endTime + interval
        omega

/-- C4: with a positive poll interval, for every response sequence in
which no request issued before the deadline is classified DONE, the
polling loop terminates with the no-result signal `None`, and the elapsed
wall-clock time at termination is at least the configured timeout and
strictly less than the timeout plus one poll interval. -/
theorem poll_timeout_bounds
    (responses : Nat → Nat × Body) (timeout_minutes poll_interval : Nat)
    (hI : 0 < poll_interval)
    (hrun : ∀ k, k * poll_interval < timeout_minutes * 60 →
      pollClassify (responses k).1 (responses k).2 = .running) :
    (poll_bright_data_results responses timeout_minutes poll_interval).result = none ∧
    timeout_minutes * 60 ≤
      (poll_bright_data_results responses timeout_minutes poll_interval).elapsed ∧
    (poll_bright_data_results responses timeout_minutes poll_interval).elapsed <
      timeout_minutes * 60 + poll_interval := by
  unfold poll_bright_data_results
  exact pollFuel_all_running responses poll_interval (timeout_minutes * 60) hI
    (timeout_minutes * 60 + 1) 0 0
    (fun j hj => by simpa using hrun j (by simpa using hj))
    (by omega)
    (by omega)

/-- C4 witness: a server that always answers HTTP 200 with `status:
"running"`, polled with a 1-minute timeout at 25-second intervals, yields
no result, 75 seconds elapsed — at least the 60-second timeout and less
than 60 + 25. -/
theorem poll_timeout_bounds_witness :
    0 < 25 ∧
    (poll_bright_data_results
      (fun _ => (200, .json (.obj [("status", .str "running")]))) 1 25).result = none ∧
    1 * 60 ≤ (poll_bright_data_results
      (fun _ => (200, .json (.obj [("status", .str "running")]))) 1 25).elapsed ∧
    (poll_bright_data_results
      (fun _ => (200, .json (.obj [("status", .str "running")]))) 1 25).elapsed <
      1 * 60 + 25 := by
  have h := poll_timeout_bounds
    (fun _ => (200, .json (.obj [("status", .str "running")]))) 1 25
    (by omega)
    (fun k _ => rfl)
  exact ⟨by omega, h.1, h.2.1, h.2.2⟩

theorem skipWs_cons_false {c : Char} (h : isJsonWs c = false) (cs : List Char) :
    skipWs (c :: cs) = c :: cs := by
  simp [skipWs, h]

theorem skipWs_cons_true {c : Char} (h : isJsonWs c = true) (cs : List Char) :
    skipWs (c :: cs) = skipWs cs := by
  simp [skipWs, h]

theorem skipWs_indent (lvl : Nat) (cs : List Char) :
    skipWs (indentChars lvl ++ cs) = skipWs cs := by
  unfold indentChars
  generalize 2 * lvl = n
  induction n with
  | zero => rfl
  | succ n ih =>
    rw [List.replicate_succ, List.cons_append, skipWs_cons_true (by decide)]
    exact ih

theorem skipWs_nl_indent (lvl : Nat) (cs : List Char) :
    skipWs ('\n' :: (indentChars lvl ++ cs)) = skipWs cs := by
  rw [skipWs_cons_true (by decide), skipWs_indent]

theorem digitChar10_isDigit {d : Nat} (h : d < 10) :
    (digitChar10 d).isDigit = true := by
  interval_cases d <;> decide

theorem digitChar10_toNat {d : Nat} (h : d < 10) :
    (digitChar10 d).toNat = 48 + d := by
  interval_cases d <;> decide

theorem digitChar10_head_facts {d : Nat} (h : d < 10) :
    isJsonWs (digitChar10 d) = false ∧ digitChar10 d ≠ ']' ∧
    digitChar10 d ≠ Char.ofNat 125 ∧ digitChar10 d ≠ ',' ∧ digitChar10 d ≠ ':' ∧
    digitChar10 d ≠ 'n' ∧ digitChar10 d ≠ 't' ∧ digitChar10 d ≠ 'f' ∧
    digitChar10 d ≠ '"' ∧ digitChar10 d ≠ '[' ∧ digitChar10 d ≠ Char.ofNat 123 ∧
    digitChar10 d ≠ '-' := by
  interval_cases d <;> exact (by decide)

theorem hexVal_hexDigitChar {m : Nat} (h : m < 16) :
    hexVal (hexDigitChar m) = some m := by
  interval_cases m <;> decide

theorem parseDigits_append (l : List Char) :
    ∀ (rest : List Char) (acc : Nat), (∀ c ∈ l, c.isDigit = true) → numSafe rest = true →
    parseDigits (l ++ rest) acc =
      (l.foldl (fun a c => a * 10 + (c.toNat - 48)) acc, rest) := by
  induction l with
  | nil =>
    intro rest acc _ hrest
    cases rest with
    | nil => rfl
    | cons c r =>
      have hc : c.isDigit = false := by
        simpa [numSafe] using hrest
      simp [parseDigits, hc]
  | cons c l ih =>
    intro rest acc hl hrest
    have hc : c.isDigit = true := hl c (List.mem_cons_self _ _)
    rw [List.cons_append]
    rw [show parseDigits (c :: (l ++ rest)) acc =
      parseDigits (l ++ rest) (acc * 10 + (c.toNat - 48)) from by simp [parseDigits, hc]]
    rw [ih rest _ (fun c' hc' => hl c' (List.mem_cons_of_mem _ hc')) hrest]
    simp

theorem foldl_digitChars (ds : List Nat) :
    ∀ acc : Nat, (∀ d ∈ ds, d < 10) →
    (ds.reverse.map digitChar10).foldl (fun a c => a * 10 + (c.toNat - 48)) acc =
      acc * 10 ^ ds.length + Nat.ofDigits 10 ds := by
  induction ds with
  | nil => intro acc _; simp [Nat.ofDigits]
  | cons d ds ih =>
    intro acc h
    have hd : d < 10 := h d (List.mem_cons_self _ _)
    rw [List.reverse_cons, List.map_append, List.foldl_append]
    rw [ih acc (fun x hx => h x (List.mem_cons_of_mem _ hx))]
    simp only [List.map_cons, List.map_nil, List.foldl_cons, List.foldl_nil]
    rw [digitChar10_toNat hd, Nat.ofDigits_cons, List.length_cons, pow_succ]
    have : 48 + d - 48 = d := by omega
    rw [this]
    ring

theorem natCharsAux_eq (f : Nat) :
    ∀ (n : Nat) (acc : List Char), 0 < n → n < 10 ^ f →
    natCharsAux f n acc = ((Nat.digits 10 n).reverse.map digitChar10) ++ acc := by
  induction f with
  | zero =>
    intro n acc h1 h2
    simp at h2
    omega
  | succ f ih =>
    intro n acc h1 h2
    by_cases h10 : n < 10
    · rw [show natCharsAux (f + 1) n acc = digitChar10 n :: acc from by
        simp [natCharsAux, h10]]
      rw [Nat.digits_def' (by norm_num : 1 < 10) h1,
        Nat.div_eq_of_lt h10, Nat.digits_zero, Nat.mod_eq_of_lt h10]
      simp
    · rw [show natCharsAux (f + 1) n acc =
        natCharsAux f (n / 10) (digitChar10 (n % 10) :: acc) from by
        simp [natCharsAux, h10]]
      rw [ih (n / 10) _ (Nat.div_pos (by omega) (by omega))
        ((Nat.div_lt_iff_lt_mul (by omega : 0 < 10)).2 (by
          rw [← pow_succ]; exact h2))]
      rw [Nat.digits_def' (by norm_num : 1 < 10) h1]
      simp

theorem natChars_eq {n : Nat} (h : 0 < n) :
    natChars n = (Nat.digits 10 n).reverse.map digitChar10 := by
  rw [natChars, natCharsAux_eq (n + 1) n [] h
    (lt_of_lt_of_le (Nat.lt_pow_self (by norm_num) n)
      (Nat.pow_le_pow_right (by omega) (by omega))), List.append_nil]

theorem natChars_head (n : Nat) :
    ∃ d t, d < 10 ∧ natChars n = digitChar10 d :: t ∧ ∀ c ∈ t, c.isDigit = true := by
  by_cases h : 0 < n
  · rw [natChars_eq h]
    cases hrev : (Nat.digits 10 n).reverse with
    | nil =>
      exfalso
      rw [List.reverse_eq_nil_iff] at hrev
      exact Nat.digits_ne_nil_iff_ne_zero.2 (by omega) hrev
    | cons d0 rtl =>
      refine ⟨d0, rtl.map digitChar10, ?_, by simp, ?_⟩
      · have hmem : d0 ∈ (Nat.digits 10 n).reverse := by
          rw [hrev]
          exact List.mem_cons_self _ _
        exact Nat.digits_lt_base (by norm_num) (List.mem_reverse.1 hmem)
      · intro c hc
        obtain ⟨d', hd', rfl⟩ := List.mem_map.1 hc
        have hmem : d' ∈ (Nat.digits 10 n).reverse := by
          rw [hrev]
          exact List.mem_cons_of_mem _ hd'
        exact digitChar10_isDigit (Nat.digits_lt_base (by norm_num) (List.mem_reverse.1 hmem))
  · refine ⟨0, [], by omega, ?_, by simp⟩
    have : n = 0 := by omega
    subst this
    rfl

theorem parseDigits_natChars (n : Nat) (rest : List Char) (hrest : numSafe rest = true) :
    parseDigits (natChars n ++ rest) 0 = (n, rest) := by
  by_cases h : 0 < n
  · rw [natChars_eq h]
    rw [parseDigits_append _ rest 0 (fun c hc => by
      obtain ⟨d', hd', rfl⟩ := List.mem_map.1 hc
      exact digitChar10_isDigit
        (Nat.digits_lt_base (by norm_num) (List.mem_reverse.1 hd'))) hrest]
    rw [foldl_digitChars _ 0 (fun d hd => Nat.digits_lt_base (by norm_num) hd)]
    simp [Nat.ofDigits_digits]
  · have : n = 0 := by omega
    subst this
    rw [show natChars 0 = ['0'] from rfl]
    rw [parseDigits_append _ rest 0 (by decide) hrest]
    rw [show (['0'] : List Char).foldl (fun a c => a * 10 + (c.toNat - 48)) 0 = 0 from by decide]

theorem parseNum_intChars (n : Int) (rest : List Char) (hrest : numSafe rest = true) :
    parseNum (intChars n ++ rest) = some (n, rest) := by
  cases n with
  | ofNat m =>
    obtain ⟨d, t, hd, heq, _⟩ := natChars_head m
    obtain ⟨_, _, _, _, _, _, _, _, _, _, _, hneg⟩ := digitChar10_head_facts hd
    rw [show intChars (Int.ofNat m) = natChars m from rfl, heq, List.cons_append]
    rw [show parseNum (digitChar10 d :: (t ++ rest)) =
      some (((parseDigits (digitChar10 d :: (t ++ rest)) 0).1 : Int),
        (parseDigits (digitChar10 d :: (t ++ rest)) 0).2) from by
      simp [parseNum, hneg, digitChar10_isDigit hd]]
    rw [← List.cons_append, ← heq, parseDigits_natChars m rest hrest]
    rfl
  | negSucc m =>
    obtain ⟨d, t, hd, heq, _⟩ := natChars_head (m + 1)
    rw [show intChars (Int.negSucc m) = '-' :: natChars (m + 1) from rfl,
      List.cons_append, heq, List.cons_append]
    rw [show parseNum ('-' :: digitChar10 d :: (t ++ rest)) =
      some (-((parseDigits (digitChar10 d :: (t ++ rest)) 0).1 : Int),
        (parseDigits (digitChar10 d :: (t ++ rest)) 0).2) from by
      simp [parseNum, digitChar10_isDigit hd]]
    rw [← List.cons_append, ← heq, parseDigits_natChars (m + 1) rest hrest]
    norm_num [Int.negSucc_eq]

theorem parseStringBody_u (m1 m2 : Nat) (hm1 : m1 < 2) (hm2 : m2 < 16) (cs : List Char) :
    parseStringBody ('\\' :: 'u' :: '0' :: '0' :: hexDigitChar m1 :: hexDigitChar m2 :: cs) =
      (parseStringBody cs).map (fun p => (Char.ofNat (m1 * 16 + m2) :: p.1, p.2)) := by
  interval_cases m1 <;> interval_cases m2 <;> rfl

theorem parseStringBody_esc (l : List Char) :
    ∀ rest : List Char,
    parseStringBody ((l.map jsonEscChar).flatten ++ ('"' :: rest)) = some (l, rest) := by
  induction l with
  | nil =>
    intro rest
    simp only [List.map_nil, List.flatten_nil, List.nil_append]
    rw [parseStringBody.eq_def]
    simp +decide
  | cons c l ih =>
    intro rest
    rw [List.map_cons, List.flatten_cons, List.append_assoc]
    by_cases h1 : c = '"'
    · subst h1
      rw [show jsonEscChar '"' = ['\\', '"'] from rfl]
      simp only [List.cons_append, List.nil_append]
      rw [parseStringBody.eq_def]
      simp +decide [ih rest]
    · by_cases h2 : c = '\\'
      · subst h2
        rw [show jsonEscChar '\\' = ['\\', '\\'] from rfl]
        simp only [List.cons_append, List.nil_append]
        rw [parseStringBody.eq_def]
        simp +decide [ih rest]
      · by_cases h3 : c = '\n'
        · subst h3
          rw [show jsonEscChar '\n' = ['\\', 'n'] from rfl]
          simp only [List.cons_append, List.nil_append]
          rw [parseStringBody.eq_def]
          simp +decide [ih rest]
        · by_cases h4 : c = '\t'
          · subst h4
            rw [show jsonEscChar '\t' = ['\\', 't'] from rfl]
            simp only [List.cons_append, List.nil_append]
            rw [parseStringBody.eq_def]
            simp +decide [ih rest]
          · by_cases h5 : c = '\r'
            · subst h5
              rw [show jsonEscChar '\r' = ['\\', 'r'] from rfl]
              simp only [List.cons_append, List.nil_append]
              rw [parseStringBody.eq_def]
              simp +decide [ih rest]
            · by_cases h6 : c = Char.ofNat 8
              · subst h6
                rw [show jsonEscChar (Char.ofNat 8) = ['\\', 'b'] from rfl]
                simp only [List.cons_append, List.nil_append]
                rw [parseStringBody.eq_def]
                simp +decide [ih rest]
              · by_cases h7 : c = Char.ofNat 12
                · subst h7
                  rw [show jsonEscChar (Char.ofNat 12) = ['\\', 'f'] from rfl]
                  simp only [List.cons_append, List.nil_append]
                  rw [parseStringBody.eq_def]
                  simp +decide [ih rest]
                · by_cases h8 : c.toNat < 32
                  · rw [show jsonEscChar c = ['\\', 'u', '0', '0',
                      hexDigitChar (c.toNat / 16), hexDigitChar (c.toNat % 16)] from by
                      simp [jsonEscChar, h1, h2, h3, h4, h5, h6, h7, h8]]
                    simp only [List.cons_append, List.nil_append]
                    rw [parseStringBody_u (c.toNat / 16) (c.toNat % 16)
                      (by omega) (by omega), ih rest]
                    rw [show c.toNat / 16 * 16 + c.toNat % 16 = c.toNat from by omega,
                      Char.ofNat_toNat]
                    rfl
                  · rw [show jsonEscChar c = [c] from by
                      simp [jsonEscChar, h1, h2, h3, h4, h5, h6, h7, h8]]
                    simp only [List.cons_append, List.nil_append]
                    rw [parseStringBody.eq_def]
                    simp [h1, h2, ih rest]

theorem jsize_pos (v : Json) : 1 ≤ jsize v := by
  cases v <;> simp [jsize]

theorem dump_head (v : Json) (lvl : Nat) :
    ∃ c t, dumpJson v lvl = c :: t ∧ isJsonWs c = false ∧ c ≠ ']' ∧
      c ≠ Char.ofNat 125 ∧ c ≠ ',' ∧ c ≠ ':' := by
  cases v with
  | null => exact ⟨'n', _, rfl, by decide, by decide, by decide, by decide, by decide⟩
  | bool b =>
    cases b with
    | true => exact ⟨'t', _, rfl, by decide, by decide, by decide, by decide, by decide⟩
    | false => exact ⟨'f', _, rfl, by decide, by decide, by decide, by decide, by decide⟩
  | num n =>
    cases n with
    | ofNat m =>
      obtain ⟨d, t, hd, heq, _⟩ := natChars_head m
      obtain ⟨hws, hrb, hrbrace, hcomma, hcolon, _⟩ := digitChar10_head_facts hd
      exact ⟨digitChar10 d, t, heq, hws, hrb, hrbrace, hcomma, hcolon⟩
    | negSucc m =>
      exact ⟨'-', _, rfl, by decide, by decide, by decide, by decide, by decide⟩
  | str s =>
    exact ⟨'"', (s.data.map jsonEscChar).flatten ++ ['"'], rfl, by decide, by decide,
      by decide, by decide, by decide⟩
  | arr xs =>
    cases xs with
    | nil => exact ⟨'[', _, rfl, by decide, by decide, by decide, by decide, by decide⟩
    | cons x xs => exact ⟨'[', _, rfl, by decide, by decide, by decide, by decide, by decide⟩
  | obj fs =>
    cases fs with
    | nil => exact ⟨Char.ofNat 123, _, rfl, by decide, by decide, by decide,
        by decide, by decide⟩
    | cons kv fs =>
      exact ⟨Char.ofNat 123, _, by rw [show dumpJson (.obj (kv :: fs)) lvl =
          Char.ofNat 123 :: ('\n' :: indentChars (lvl + 1) ++ jsonQuote kv.1 ++
            ':' :: ' ' :: dumpJson kv.2 (lvl + 1) ++ dumpFields fs (lvl + 1) ++
            '\n' :: indentChars lvl ++ [Char.ofNat 125]) from by
          cases kv; rfl],
        by decide, by decide, by decide, by decide, by decide⟩

theorem skipWs_dump (v : Json) (lvl : Nat) (rest : List Char) :
    skipWs (dumpJson v lvl ++ rest) = dumpJson v lvl ++ rest := by
  obtain ⟨c, t, heq, hws, _⟩ := dump_head v lvl
  rw [heq, List.cons_append, skipWs_cons_false hws]

theorem parseValue_ws_congr (f : Nat) (cs₁ cs₂ : List Char)
    (h : skipWs cs₁ = skipWs cs₂) : parseValue f cs₁ = parseValue f cs₂ := by
  cases f with
  | zero => rfl
  | succ f =>
    simp only [parseValue]
    rw [h]

theorem parseElems_ws_congr (f : Nat) (cs₁ cs₂ : List Char)
    (h : skipWs cs₁ = skipWs cs₂) : parseElems f cs₁ = parseElems f cs₂ := by
  cases f with
  | zero => rfl
  | succ f =>
    simp only [parseElems]
    rw [parseValue_ws_congr f cs₁ cs₂ h]

theorem parseMembers_ws_congr (f : Nat) (cs₁ cs₂ : List Char)
    (h : skipWs cs₁ = skipWs cs₂) : parseMembers f cs₁ = parseMembers f cs₂ := by
  cases f with
  | zero => rfl
  | succ f =>
    simp only [parseMembers]
    rw [h]

theorem parse_dump_fuel : ∀ f : Nat,
    (∀ (v : Json) (lvl : Nat) (rest : List Char), jsize v ≤ f → numSafe rest = true →
      parseValue f (dumpJson v lvl ++ rest) = some (v, rest)) ∧
    (∀ (x : Json) (xs : List Json) (lvl : Nat) (rest : List Char),
      jsizeList (x :: xs) ≤ f →
      parseElems f (dumpJson x (lvl + 1) ++ (dumpElems xs (lvl + 1) ++
        ('\n' :: (indentChars lvl ++ (']' :: rest))))) = some (x :: xs, rest)) ∧
    (∀ (k : String) (v : Json) (fs : List (String × Json)) (lvl : Nat) (rest : List Char),
      jsizeFields ((k, v) :: fs) ≤ f →
      parseMembers f (jsonQuote k ++ (':' :: ' ' :: (dumpJson v (lvl + 1) ++
        (dumpFields fs (lvl + 1) ++ ('\n' :: (indentChars lvl ++
        (Char.ofNat 125 :: rest))))))) = some ((k, v) :: fs, rest)) := by
  intro f
  induction f using Nat.strong_induction_on with
  | _ f ih =>
    refine ⟨?_, ?_, ?_⟩
    · -- parseValue on a dumped value
      intro v lvl rest hsz hrest
      cases f with
      | zero => exact absurd hsz (by have := jsize_pos v; omega)
      | succ f =>
        cases v with
        | null =>
          simp only [parseValue]
          rw [show (dumpJson .null lvl ++ rest : List Char) =
            'n' :: 'u' :: 'l' :: 'l' :: rest from rfl]
          rw [skipWs_cons_false (by decide)]
          simp +decide
        | bool b =>
          cases b with
          | true =>
            simp only [parseValue]
            rw [show (dumpJson (.bool true) lvl ++ rest : List Char) =
              't' :: 'r' :: 'u' :: 'e' :: rest from rfl]
            rw [skipWs_cons_false (by decide)]
            simp +decide
          | false =>
            simp only [parseValue]
            rw [show (dumpJson (.bool false) lvl ++ rest : List Char) =
              'f' :: 'a' :: 'l' :: 's' :: 'e' :: rest from rfl]
            rw [skipWs_cons_false (by decide)]
            simp +decide
        | num n =>
          rw [show dumpJson (.num n) lvl = intChars n from rfl]
          cases n with
          | ofNat m =>
            obtain ⟨d, t, hd, heq, _⟩ := natChars_head m
            obtain ⟨hws, _, _, _, _, hn, ht, hf, hq, hlb, hlbrace, hminus⟩ :=
              digitChar10_head_facts hd
            rw [show intChars (Int.ofNat m) = natChars m from rfl, heq, List.cons_append]
            simp only [parseValue]
            rw [skipWs_cons_false hws]
            simp only [hn, ht, hf, hq, hlb, hlbrace, hminus, if_false,
              digitChar10_isDigit hd, Bool.or_true, if_true]
            rw [← List.cons_append, ← heq,
              show natChars m = intChars (Int.ofNat m) from rfl,
              parseNum_intChars (Int.ofNat m) rest hrest]
            rfl
          | negSucc m =>
            rw [show intChars (Int.negSucc m) ++ rest =
              '-' :: (natChars (m + 1) ++ rest) from by simp [intChars]]
            simp only [parseValue]
            rw [skipWs_cons_false (by decide)]
            simp +decide only [show ('-' = 'n') = False from by simp,
              show ('-' = 't') = False from by simp,
              show ('-' = 'f') = False from by simp,
              show ('-' = '"') = False from by simp,
              show ('-' = '[') = False from by simp,
              show ('-' = Char.ofNat 123) = False from by decide,
              if_false, if_true,
              show ('-' = '-') = True from by simp, Bool.true_or]
            rw [show ('-' :: (natChars (m + 1) ++ rest) : List Char) =
              intChars (Int.negSucc m) ++ rest from by simp [intChars],
              parseNum_intChars (Int.negSucc m) rest hrest]
            rfl
        | str s =>
          rw [show dumpJson (.str s) lvl ++ rest =
            '"' :: ((s.data.map jsonEscChar).flatten ++ ('"' :: rest)) from by
            simp [dumpJson, jsonQuote]]
          simp only [parseValue]
          rw [skipWs_cons_false (by decide)]
          simp +decide [parseStringBody_esc s.data rest]
        | arr xs =>
          cases xs with
          | nil =>
            simp only [parseValue]
            rw [show (dumpJson (.arr []) lvl ++ rest : List Char) =
              '[' :: ']' :: rest from rfl]
            rw [skipWs_cons_false (by decide)]
            simp +decide
            rw [skipWs_cons_false (by decide)]
            simp +decide
          | cons x xs =>
            have hsz' : jsizeList (x :: xs) ≤ f := by
              simp only [jsize] at hsz
              omega
            rw [show dumpJson (.arr (x :: xs)) lvl ++ rest =
              '[' :: ('\n' :: (indentChars (lvl + 1) ++ (dumpJson x (lvl + 1) ++
                (dumpElems xs (lvl + 1) ++ ('\n' :: (indentChars lvl ++
                (']' :: rest))))))) from by
              simp [dumpJson, List.append_assoc]]
            simp only [parseValue]
            rw [skipWs_cons_false (by decide)]
            simp +decide
            rw [skipWs_nl_indent, skipWs_dump]
            obtain ⟨c2, t2, heq2, _, hrb2, _⟩ := dump_head x (lvl + 1)
            rw [heq2, List.cons_append]
            simp +decide [hrb2]
            rw [← List.cons_append, ← heq2,
              (ih f (Nat.lt_succ_self f)).2.1 x xs lvl rest hsz']
        | obj fs =>
          cases fs with
          | nil =>
            simp only [parseValue]
            rw [show (dumpJson (.obj []) lvl ++ rest : List Char) =
              Char.ofNat 123 :: Char.ofNat 125 :: rest from rfl]
            rw [skipWs_cons_false (by decide)]
            simp +decide
            rw [skipWs_cons_false (by decide)]
            simp +decide
          | cons kv fs =>
            obtain ⟨k, v⟩ := kv
            have hsz' : jsizeFields ((k, v) :: fs) ≤ f := by
              simp only [jsize] at hsz
              omega
            rw [show dumpJson (.obj ((k, v) :: fs)) lvl ++ rest =
              Char.ofNat 123 :: ('\n' :: (indentChars (lvl + 1) ++
                ('"' :: ((k.data.map jsonEscChar).flatten ++ ('"' :: (':' :: ' ' ::
                (dumpJson v (lvl + 1) ++ (dumpFields fs (lvl + 1) ++
                ('\n' :: (indentChars lvl ++ (Char.ofNat 125 :: rest))))))))))) from by
              simp [dumpJson, jsonQuote, List.append_assoc]]
            simp only [parseValue]
            rw [skipWs_cons_false (by decide)]
            simp +decide
            rw [skipWs_nl_indent, skipWs_cons_false (by decide)]
            simp +decide
            rw [show ('"' :: ((k.data.map jsonEscChar).flatten ++ ('"' :: (':' :: ' ' ::
                (dumpJson v (lvl + 1) ++ (dumpFields fs (lvl + 1) ++
                ('\n' :: (indentChars lvl ++ (Char.ofNat 125 :: rest)))))))) : List Char) =
              jsonQuote k ++ (':' :: ' ' :: (dumpJson v (lvl + 1) ++
                (dumpFields fs (lvl + 1) ++ ('\n' :: (indentChars lvl ++
                (Char.ofNat 125 :: rest)))))) from by
              simp [jsonQuote, List.append_assoc]]
            rw [(ih f (Nat.lt_succ_self f)).2.2 k v fs lvl rest hsz']
    · -- parseElems on dumped elements
      intro x xs lvl rest hsz
      cases f with
      | zero =>
        exfalso
        have := jsize_pos x
        simp only [jsizeList] at hsz
        omega
      | succ f =>
        have hszx : jsize x ≤ f := by
          simp only [jsizeList] at hsz
          have := jsize_pos x
          omega
        simp only [parseElems]
        cases xs with
        | nil =>
          rw [show dumpElems ([] : List Json) (lvl + 1) = [] from rfl, List.nil_append]
          rw [(ih f (Nat.lt_succ_self f)).1 x (lvl + 1)
            ('\n' :: (indentChars lvl ++ (']' :: rest))) hszx rfl]
          simp +decide
          rw [skipWs_nl_indent, skipWs_cons_false (by decide)]
          simp +decide
        | cons y ys =>
          have hsz' : jsizeList (y :: ys) ≤ f := by
            simp only [jsizeList] at hsz ⊢
            have := jsize_pos x
            omega
          rw [show dumpElems (y :: ys) (lvl + 1) ++
              ('\n' :: (indentChars lvl ++ (']' :: rest))) =
            ',' :: ('\n' :: (indentChars (lvl + 1) ++ (dumpJson y (lvl + 1) ++
              (dumpElems ys (lvl + 1) ++ ('\n' :: (indentChars lvl ++
              (']' :: rest))))))) from by
            simp [dumpElems, List.append_assoc]]
          rw [(ih f (Nat.lt_succ_self f)).1 x (lvl + 1)
            (',' :: ('\n' :: (indentChars (lvl + 1) ++ (dumpJson y (lvl + 1) ++
              (dumpElems ys (lvl + 1) ++ ('\n' :: (indentChars lvl ++
              (']' :: rest)))))))) hszx rfl]
          simp +decide
          rw [skipWs_cons_false (by decide)]
          simp +decide
          rw [parseElems_ws_congr f _ _ (skipWs_nl_indent (lvl + 1) _),
            (ih f (Nat.lt_succ_self f)).2.1 y ys lvl rest hsz']
    · -- parseMembers on dumped members
      intro k v fs lvl rest hsz
      cases f with
      | zero =>
        exfalso
        have := jsize_pos v
        simp only [jsizeFields] at hsz
        omega
      | succ f =>
        have hszv : jsize v ≤ f := by
          simp only [jsizeFields] at hsz
          have := jsize_pos v
          omega
        have hnum : numSafe (dumpFields fs (lvl + 1) ++
            ('\n' :: (indentChars lvl ++ (Char.ofNat 125 :: rest)))) = true := by
          cases fs with
          | nil => rfl
          | cons kv2 fs2 =>
            obtain ⟨k2, v2⟩ := kv2
            rw [show dumpFields ((k2, v2) :: fs2) (lvl + 1) ++
                ('\n' :: (indentChars lvl ++ (Char.ofNat 125 :: rest))) =
              ',' :: ('\n' :: (indentChars (lvl + 1) ++ (jsonQuote k2 ++ (':' :: ' ' ::
                (dumpJson v2 (lvl + 1) ++ (dumpFields fs2 (lvl + 1) ++
                ('\n' :: (indentChars lvl ++ (Char.ofNat 125 :: rest))))))))) from by
              simp [dumpFields, List.append_assoc]]
            rfl
        simp only [parseMembers]
        rw [show jsonQuote k ++ (':' :: ' ' :: (dumpJson v (lvl + 1) ++
            (dumpFields fs (lvl + 1) ++ ('\n' :: (indentChars lvl ++
            (Char.ofNat 125 :: rest)))))) =
          '"' :: ((k.data.map jsonEscChar).flatten ++ ('"' :: (':' :: ' ' ::
            (dumpJson v (lvl + 1) ++ (dumpFields fs (lvl + 1) ++
            ('\n' :: (indentChars lvl ++ (Char.ofNat 125 :: rest)))))))) from by
          simp [jsonQuote, List.append_assoc]]
        rw [skipWs_cons_false (by decide)]
        simp +decide
        rw [parseStringBody_esc k.data]
        simp +decide
        rw [skipWs_cons_false (by decide)]
        simp +decide
        rw [parseValue_ws_congr f _ _ (skipWs_cons_true (by decide) _),
          (ih f (Nat.lt_succ_self f)).1 v (lvl + 1)
            (dumpFields fs (lvl + 1) ++ ('\n' :: (indentChars lvl ++
              (Char.ofNat 125 :: rest)))) hszv hnum]
        simp +decide
        cases fs with
        | nil =>
          rw [show dumpFields ([] : List (String × Json)) (lvl + 1) = [] from rfl,
            List.nil_append]
          rw [skipWs_nl_indent, skipWs_cons_false (by decide)]
          simp +decide
        | cons kv2 fs2 =>
          obtain ⟨k2, v2⟩ := kv2
          have hsz' : jsizeFields ((k2, v2) :: fs2) ≤ f := by
            simp only [jsizeFields] at hsz ⊢
            have := jsize_pos v
            omega
          rw [show dumpFields ((k2, v2) :: fs2) (lvl + 1) ++
              ('\n' :: (indentChars lvl ++ (Char.ofNat 125 :: rest))) =
            ',' :: ('\n' :: (indentChars (lvl + 1) ++ (jsonQuote k2 ++ (':' :: ' ' ::
              (dumpJson v2 (lvl + 1) ++ (dumpFields fs2 (lvl + 1) ++
              ('\n' :: (indentChars lvl ++ (Char.ofNat 125 :: rest))))))))) from by
            simp [dumpFields, List.append_assoc]]
          rw [skipWs_cons_false (by decide)]
          simp +decide
          rw [parseMembers_ws_congr f _ _ (skipWs_nl_indent (lvl + 1) _),
            (ih f (Nat.lt_succ_self f)).2.2 k2 v2 fs2 lvl rest hsz']

theorem dump_len_ge : ∀ n : Nat,
    (∀ (v : Json) (lvl : Nat), jsize v ≤ n → jsize v ≤ (dumpJson v lvl).length) ∧
    (∀ (xs : List Json) (lvl : Nat), jsizeList xs ≤ n →
      jsizeList xs ≤ (dumpElems xs lvl).length) ∧
    (∀ (fs : List (String × Json)) (lvl : Nat), jsizeFields fs ≤ n →
      jsizeFields fs ≤ (dumpFields fs lvl).length) := by
  intro n
  induction n using Nat.strong_induction_on with
  | _ n ih =>
    refine ⟨?_, ?_, ?_⟩
    · intro v lvl hsz
      cases v with
      | null => simp [jsize, dumpJson]
      | bool b => cases b <;> simp [jsize, dumpJson]
      | num m =>
        obtain ⟨d, t, hd, heq, _⟩ := natChars_head (m.natAbs)
        simp only [jsize, dumpJson]
        cases m with
        | ofNat k =>
          obtain ⟨d', t', _, heq', _⟩ := natChars_head k
          simp [intChars, heq']
        | negSucc k => simp [intChars]
      | str s => simp [jsize, dumpJson, jsonQuote]
      | arr xs =>
        cases xs with
        | nil => simp [jsize, jsizeList, dumpJson]
        | cons x xs =>
          have h1 : jsize x ≤ n - 2 := by
            simp only [jsize, jsizeList] at hsz
            have := jsize_pos x
            omega
          have h2 : jsizeList xs ≤ n - 2 := by
            simp only [jsize, jsizeList] at hsz
            have := jsize_pos x
            omega
          have hn2 : n - 2 < n := by
            simp only [jsize, jsizeList] at hsz
            have := jsize_pos x
            omega
          have i1 := (ih (n - 2) hn2).1 x (lvl + 1) h1
          have i2 := (ih (n - 2) hn2).2.1 xs (lvl + 1) h2
          simp only [jsize, jsizeList] at i1 i2 ⊢
          simp [dumpJson, List.length_append]
          omega
      | obj fs =>
        cases fs with
        | nil => simp [jsize, jsizeFields, dumpJson]
        | cons kv fs =>
          obtain ⟨k, v⟩ := kv
          have h1 : jsize v ≤ n - 2 := by
            simp only [jsize, jsizeFields] at hsz
            have := jsize_pos v
            omega
          have h2 : jsizeFields fs ≤ n - 2 := by
            simp only [jsize, jsizeFields] at hsz
            have := jsize_pos v
            omega
          have hn2 : n - 2 < n := by
            simp only [jsize, jsizeFields] at hsz
            have := jsize_pos v
            omega
          have i1 := (ih (n - 2) hn2).1 v (lvl + 1) h1
          have i2 := (ih (n - 2) hn2).2.2 fs (lvl + 1) h2
          simp only [jsize, jsizeFields] at i1 i2 ⊢
          simp [dumpJson, List.length_append]
          omega
    · intro xs lvl hsz
      cases xs with
      | nil => simp [jsizeList]
      | cons x xs =>
        have h1 : jsize x ≤ n - 1 := by
          simp only [jsizeList] at hsz
          omega
        have h2 : jsizeList xs ≤ n - 1 := by
          simp only [jsizeList] at hsz
          have := jsize_pos x
          omega
        have hn1 : n - 1 < n := by
          simp only [jsizeList] at hsz
          have := jsize_pos x
          omega
        have i1 := (ih (n - 1) hn1).1 x lvl h1
        have i2 := (ih (n - 1) hn1).2.1 xs lvl h2
        simp only [jsizeList] at i2 ⊢
        simp [dumpElems, List.length_append]
        omega
    · intro fs lvl hsz
      cases fs with
      | nil => simp [jsizeFields]
      | cons kv fs =>
        obtain ⟨k, v⟩ := kv
        have h1 : jsize v ≤ n - 1 := by
          simp only [jsizeFields] at hsz
          omega
        have h2 : jsizeFields fs ≤ n - 1 := by
          simp only [jsizeFields] at hsz
          have := jsize_pos v
          omega
        have hn1 : n - 1 < n := by
          simp only [jsizeFields] at hsz
          have := jsize_pos v
          omega
        have i1 := (ih (n - 1) hn1).1 v lvl h1
        have i2 := (ih (n - 1) hn1).2.2 fs lvl h2
        simp only [jsizeFields] at i2 ⊢
        simp [dumpFields, List.length_append]
        omega

/-- C7: serializing any JSON payload with `save_results` and parsing the
file's contents back as JSON yields the original payload — write followed
by read is the identity on (integer-numbered) JSON values. -/
theorem save_results_roundtrip (data : Json) :
    json_loads (save_results_file_content data) = some data := by
  unfold json_loads save_results_file_content
  have hsz : jsize data ≤ (dumpJson data 0).length + 1 := by
    have := (dump_len_ge (jsize data)).1 data 0 le_rfl
    omega
  have h := (parse_dump_fuel ((dumpJson data 0).length + 1)).1 data 0 [] hsz rfl
  rw [List.append_nil] at h
  rw [h]
  simp +decide
